import Mathlib

/-!
Verification of a minimal MVCC key-value engine (single Go file `main.go`).

The engine stores, for each key, an ordered chain of versioned values; each
version records the transaction that created it (`txStartId`) and the
transaction that ended it (`txEndId`, 0 when still live).  Transactions are
allocated monotonically increasing ids by the database and live in a
transaction table.  Visibility of a version to a transaction is decided by
`isvisible`, which only implements the ReadUncommitted isolation level and
hits a fatal assertion for every stricter level.  Commands are executed
through a connection holding at most one transaction.

Shallow embedding conventions:
  * Go `uint64` ids become `Nat` (ids only ever grow by 1 from 1, far from
    any overflow concern, and no wrap-around arithmetic is performed on them).
  * The Go map `map[string][]Value` becomes a total function
    `String → List Value` (a missing key and an empty slice are
    indistinguishable in the Go code, which only ever reads with the
    empty-default and appends).
  * The ordered map `btree.Map[uint64, Transaction]` becomes an association
    list updated by `mapSet` (replace-or-append, keeping key uniqueness for
    the states the engine actually constructs).
  * The sets `btree.Set` become lists with idempotent insertion; the engine
    only ever relies on their contents, never on their internal order.
  * A Go panic (failed `assert`, nil-pointer dereference, slice index out of
    range) is a fatal, non-recoverable outcome: operations that can panic
    return `Option` (with `none` = panic), and `execCommand` returns an
    `ExecResult` whose `fatal` constructor carries the panic message.
  * `Connection` state (its `tx *Transaction` field) is passed explicitly:
    `execCommand` takes the current `Option Transaction` and returns the new
    one inside `ExecResult`.  The Go `c.tx` pointer aims at a heap
    transaction distinct from the copy stored in the transaction table, so
    mutations of the connection transaction (read/write-set inserts) do not
    touch the table until `completeTransaction` re-stores it; the embedding
    reproduces exactly that.
-/

namespace MVCC

/-- `Value` from `main.go`: one stored version of a key.  `txStartId` is the
id of the creating transaction, `txEndId` the id of the ending transaction
(0 meaning "not ended"), `value` the payload string. -/
structure Value where
  txStartId : Nat
  txEndId : Nat
  value : String
deriving DecidableEq, Repr

/-- `TransactionState` from `main.go`. -/
inductive TransactionState where
  | inProgressTransaction
  | abortedTransaction
  | committedTransaction
deriving DecidableEq, Repr

/-- `IsolationLevel` from `main.go`, loosest first. -/
inductive IsolationLevel where
  | readUncommitedIsolation
  | readCommitedIsolation
  | repeatableReadIsolation
  | snapshotIsolation
  | serializableIsolation
deriving DecidableEq, Repr

/-- `Transaction` from `main.go`.  `inprogress`, `writeset` and `readset`
are `btree.Set`s in Go, modelled as lists with idempotent insertion. -/
structure Transaction where
  isolation : IsolationLevel
  id : Nat
  state : TransactionState
  inprogress : List Nat
  writeset : List String
  readset : List String
deriving DecidableEq, Repr

/-- Insert into a string set (`btree.Set[string].Insert`): no duplicates. -/
def setInsertStr (s : List String) (x : String) : List String :=
  if x ∈ s then s else s ++ [x]

/-- Lookup in the transaction table (`btree.Map.Get`). -/
def mapGet (m : List (Nat × Transaction)) (k : Nat) : Option Transaction :=
  match m with
  | [] => none
  | (k2, v2) :: rest => if k2 = k then some v2 else mapGet rest k

/-- Store into the transaction table (`btree.Map.Set`): replace the entry
with key `k` if present, otherwise append. -/
def mapSet (m : List (Nat × Transaction)) (k : Nat) (v : Transaction) :
    List (Nat × Transaction) :=
  match m with
  | [] => [(k, v)]
  | (k2, v2) :: rest =>
      if k2 = k then (k, v) :: rest else (k2, v2) :: mapSet rest k v

/-- `Database` from `main.go`. -/
structure Database where
  defaultIsolation : IsolationLevel
  store : String → List Value
  transactions : List (Nat × Transaction)
  nextTransactionId : Nat

/-- `newDatabase` from `main.go`: default isolation ReadCommitted, empty
store, empty transaction table, next id 1. -/
def newDatabase : Database :=
  { defaultIsolation := IsolationLevel.readCommitedIsolation
    store := fun _ => []
    transactions := []
    nextTransactionId := 1 }

/-- `Database.inprogress` from `main.go`: ids of all transactions whose
state in the table is InProgress. -/
def Database.inprogress (d : Database) : List Nat :=
  (d.transactions.filter
    (fun p => decide (p.2.state = TransactionState.inProgressTransaction))).map
    Prod.fst

/-- `Database.newTransaction` from `main.go`: build a transaction with the
database default isolation, state InProgress, the next id (then increment
it), the snapshot of currently-in-progress ids, and register it in the
table.  Returns the transaction handle and the updated database. -/
def Database.newTransaction (d : Database) : Transaction × Database :=
  let t : Transaction :=
    { isolation := d.defaultIsolation
      id := d.nextTransactionId
      state := TransactionState.inProgressTransaction
      inprogress := d.inprogress
      writeset := []
      readset := [] }
  (t, { d with
          nextTransactionId := d.nextTransactionId + 1
          transactions := mapSet d.transactions t.id t })

/-- `Database.completeTransaction` from `main.go`: set the state and
re-store the transaction in the table (the Go error result is always nil). -/
def Database.completeTransaction (d : Database) (t : Transaction)
    (state : TransactionState) : Transaction × Database :=
  let t2 := { t with state := state }
  (t2, { d with transactions := mapSet d.transactions t2.id t2 })

/-- `Database.transactionState` from `main.go`; the Go version panics when
the id is absent, here `none`. -/
def Database.transactionState (d : Database) (txId : Nat) : Option Transaction :=
  mapGet d.transactions txId

/-- `Database.isvisible` from `main.go`: under ReadUncommitted a value is
visible iff its `txEndId` is 0; under every other isolation level the Go
code hits `assert(false, "unsupported isolation level")`, modelled as
`none`. -/
def Database.isvisible (_d : Database) (t : Transaction) (value : Value) :
    Option Bool :=
  if t.isolation = IsolationLevel.readUncommitedIsolation then
    some (decide (value.txEndId = 0))
  else
    none

/-- `Database.assertValidTransaction` from `main.go`: true iff both asserts
pass (nonzero id, and the table entry for the id exists and is InProgress);
false means a fatal panic. -/
def Database.assertValidTransaction (d : Database) (t : Transaction) : Bool :=
  decide (0 < t.id) &&
    match d.transactionState t.id with
    | some tt => decide (tt.state = TransactionState.inProgressTransaction)
    | none => false

/-- Outcome of `Connection.execCommand`: a normal result string, a
recoverable error (Go `fmt.Errorf`), or a fatal panic.  `ok` and `err`
carry the connection transaction and database after the call. -/
inductive ExecResult where
  | ok (result : String) (tx : Option Transaction) (db : Database)
  | err (msg : String) (tx : Option Transaction) (db : Database)
  | fatal (msg : String)

/-- The version-chain scan of the `get` branch, applied to the reversed
chain (Go iterates indices from `len-1` down to 0): the first value for
which `isvisible` answers true, `some none` when no value is visible,
`none` when an `isvisible` call panics. -/
def scanVisible (d : Database) (t : Transaction) : List Value → Option (Option Value)
  | [] => some none
  | v :: rest =>
    match d.isvisible t v with
    | none => none
    | some true => some (some v)
    | some false => scanVisible d t rest

/-- The marking loop of the `set`/`delete` branch: set `txEndId := t.id` on
every visible value of the chain, and report whether any value was visible
(Go's `found`).  Go iterates from the end, so the tail is processed first;
`none` when an `isvisible` call panics. -/
def closeVisible (d : Database) (t : Transaction) : List Value → Option (List Value × Bool)
  | [] => some ([], false)
  | v :: rest =>
    match closeVisible d t rest, d.isvisible t v with
    | none, _ => none
    | some _, none => none
    | some (rest2, _), some true => some ({ v with txEndId := t.id } :: rest2, true)
    | some (rest2, found), some false => some (v :: rest2, found)

/-- Replace one key's chain in the store (Go map assignment / in-place
slice-element mutation). -/
def storeSet (s : String → List Value) (k : String) (vs : List Value) :
    String → List Value :=
  fun k2 => if k2 = k then vs else s k2

/-- `Connection.execCommand` from `main.go`.  `tx` is the connection's
current transaction (`c.tx`, `none` for Go `nil`).  Branches in source
order: begin, abort, commit, get, set/delete, then the `unimplemented`
error.  A nil `c.tx` reaching `assertValidTransaction` dereferences a nil
pointer in Go, hence `fatal`. -/
def execCommand (db : Database) (tx : Option Transaction) (command : String)
    (args : List String) : ExecResult :=
  if command = "begin" then
    match tx with
    | some _ => ExecResult.fatal "no running transactions"
    | none =>
      match db.newTransaction with
      | (t, db2) =>
        if db2.assertValidTransaction t then
          ExecResult.ok (toString t.id) (some t) db2
        else
          ExecResult.fatal "valid transaction"
  else if command = "abort" then
    match tx with
    | none => ExecResult.fatal "nil transaction"
    | some t =>
      if db.assertValidTransaction t then
        match db.completeTransaction t TransactionState.abortedTransaction with
        | (_, db2) => ExecResult.ok "" none db2
      else ExecResult.fatal "valid transaction"
  else if command = "commit" then
    match tx with
    | none => ExecResult.fatal "nil transaction"
    | some t =>
      if db.assertValidTransaction t then
        match db.completeTransaction t TransactionState.committedTransaction with
        | (_, db2) => ExecResult.ok "" none db2
      else ExecResult.fatal "valid transaction"
  else if command = "get" then
    match tx with
    | none => ExecResult.fatal "nil transaction"
    | some t =>
      if db.assertValidTransaction t then
        match args[0]? with
        | none => ExecResult.fatal "index out of range"
        | some key =>
          let t2 := { t with readset := setInsertStr t.readset key }
          match scanVisible db t2 ((db.store key).reverse) with
          | none => ExecResult.fatal "unsupported isolation level"
          | some (some v) => ExecResult.ok v.value (some t2) db
          | some none =>
              ExecResult.err "cannot get key that does not exist" (some t2) db
      else ExecResult.fatal "valid transaction"
  else if command = "set" ∨ command = "delete" then
    match tx with
    | none => ExecResult.fatal "nil transaction"
    | some t =>
      if db.assertValidTransaction t then
        match args[0]? with
        | none => ExecResult.fatal "index out of range"
        | some key =>
          match closeVisible db t (db.store key) with
          | none => ExecResult.fatal "unsupported isolation level"
          | some (chain, found) =>
            if command = "delete" ∧ found = false then
              ExecResult.err "cannot delete key that does not exist" (some t)
                { db with store := storeSet db.store key chain }
            else
              let t2 := { t with writeset := setInsertStr t.writeset key }
              if command = "set" then
                match args[1]? with
                | none => ExecResult.fatal "index out of range"
                | some value =>
                  let chain2 :=
                    chain ++ [{ txStartId := t.id, txEndId := 0, value := value }]
                  ExecResult.ok value (some t2)
                    { db with store := storeSet db.store key chain2 }
              else
                ExecResult.ok "" (some t2)
                  { db with store := storeSet db.store key chain }
      else ExecResult.fatal "valid transaction"
  else
    ExecResult.err "unimplemented" tx db

/-- Database carried by a non-fatal outcome. -/
def resultDb : ExecResult → Option Database
  | ExecResult.ok _ _ db => some db
  | ExecResult.err _ _ db => some db
  | ExecResult.fatal _ => none

/-- True exactly on the fatal (panic) outcome. -/
def isFatal : ExecResult → Bool
  | ExecResult.fatal _ => true
  | _ => false

/-- Close a version when it is live: the per-element effect of the
set/delete marking loop under ReadUncommitted. -/
def closeIfLive (txId : Nat) (v : Value) : Value :=
  if v.txEndId = 0 then { v with txEndId := txId } else v

/-- Liveness test of a version, as a Bool predicate. -/
def isLive (v : Value) : Bool :=
  decide (v.txEndId = 0)

/-!  Helper lemmas about the visibility scan and the marking loop. -/

lemma isvisible_ru (d : Database) (t : Transaction) (v : Value)
    (h : t.isolation = IsolationLevel.readUncommitedIsolation) :
    d.isvisible t v = some (decide (v.txEndId = 0)) := by
  simp [Database.isvisible, h]

lemma isvisible_not_ru (d : Database) (t : Transaction) (v : Value)
    (h : t.isolation ≠ IsolationLevel.readUncommitedIsolation) :
    d.isvisible t v = none := by
  simp [Database.isvisible, h]

lemma isvisible_true_iff (d : Database) (t : Transaction) (v : Value)
    (h : t.isolation = IsolationLevel.readUncommitedIsolation) :
    d.isvisible t v = some true ↔ v.txEndId = 0 := by
  rw [isvisible_ru d t v h]
  by_cases hz : v.txEndId = 0 <;> simp [hz]

lemma scanVisible_ru (d : Database) (t : Transaction)
    (h : t.isolation = IsolationLevel.readUncommitedIsolation) :
    ∀ vs : List Value, scanVisible d t vs = some (vs.find? isLive)
  | [] => rfl
  | v :: rest => by
    have ih := scanVisible_ru d t h rest
    simp only [scanVisible, isvisible_ru d t v h]
    by_cases hz : v.txEndId = 0
    · rw [List.find?_cons_of_pos _ (by simp [isLive, hz])]
      simp [hz]
    · rw [List.find?_cons_of_neg _ (by simp [isLive, hz])]
      simp [hz, ih]

lemma scanVisible_not_ru (d : Database) (t : Transaction) (v : Value)
    (rest : List Value)
    (h : t.isolation ≠ IsolationLevel.readUncommitedIsolation) :
    scanVisible d t (v :: rest) = none := by
  simp only [scanVisible, isvisible_not_ru d t v h]

lemma closeVisible_ru (d : Database) (t : Transaction)
    (h : t.isolation = IsolationLevel.readUncommitedIsolation) :
    ∀ vs : List Value,
      closeVisible d t vs = some (vs.map (closeIfLive t.id), vs.any isLive)
  | [] => rfl
  | v :: rest => by
    have ih := closeVisible_ru d t h rest
    simp only [closeVisible, ih, isvisible_ru d t v h]
    by_cases hz : v.txEndId = 0
    · simp [hz, closeIfLive, isLive]
    · simp [hz, closeIfLive, isLive]

lemma closeVisible_not_ru (d : Database) (t : Transaction) (v : Value)
    (rest : List Value)
    (h : t.isolation ≠ IsolationLevel.readUncommitedIsolation) :
    closeVisible d t (v :: rest) = none := by
  cases hr : closeVisible d t rest with
  | none => simp only [closeVisible, hr]
  | some p => simp only [closeVisible, hr, isvisible_not_ru d t v h]

lemma closeVisible_not_found (d : Database) (t : Transaction) :
    ∀ vs vs2 : List Value, closeVisible d t vs = some (vs2, false) → vs2 = vs
  | [], vs2, h => by
    simp only [closeVisible, Option.some_inj] at h
    exact congrArg Prod.fst h.symm
  | v :: rest, vs2, h => by
    simp only [closeVisible] at h
    cases hr : closeVisible d t rest with
    | none => rw [hr] at h; cases h
    | some p =>
      obtain ⟨rest2, found⟩ := p
      rw [hr] at h
      cases hv : d.isvisible t v with
      | none => rw [hv] at h; cases h
      | some b =>
        rw [hv] at h
        cases b with
        | true => simp at h
        | false =>
          simp only [Option.some_inj, Prod.mk.injEq] at h
          obtain ⟨h1, h2⟩ := h
          subst h2
          have := closeVisible_not_found d t rest rest2 hr
          rw [← h1, this]

lemma storeSet_self (s : String → List Value) (k : String) :
    storeSet s k (s k) = s := by
  funext k2
  simp only [storeSet]
  by_cases hk : k2 = k
  · rw [hk, if_pos rfl]
  · rw [if_neg hk]

lemma map_closeIfLive_of_none_live (txId : Nat) :
    ∀ vs : List Value, vs.any isLive = false → vs.map (closeIfLive txId) = vs
  | [], _ => rfl
  | v :: rest, h => by
    simp only [List.any_cons, Bool.or_eq_false_iff] at h
    have hv : ¬ v.txEndId = 0 := by
      have := h.1
      simp [isLive] at this
      exact this
    simp only [List.map_cons, closeIfLive, if_neg hv,
      map_closeIfLive_of_none_live txId rest h.2]

/-- `assertValidTransaction` decoded. -/
lemma assertValidTransaction_iff (d : Database) (t : Transaction) :
    d.assertValidTransaction t = true ↔
      0 < t.id ∧ ∃ tt, mapGet d.transactions t.id = some tt ∧
        tt.state = TransactionState.inProgressTransaction := by
  unfold Database.assertValidTransaction Database.transactionState
  cases hm : mapGet d.transactions t.id with
  | none => simp
  | some tt => simp [hm]

/-!  Helper lemmas about the transaction table. -/

lemma mapGet_mapSet_same (m : List (Nat × Transaction)) (k : Nat)
    (v : Transaction) : mapGet (mapSet m k v) k = some v := by
  induction m with
  | nil => simp [mapSet, mapGet]
  | cons p rest ih =>
    obtain ⟨k2, v2⟩ := p
    by_cases hk : k2 = k
    · simp [mapSet, hk, mapGet]
    · simp [mapSet, hk, mapGet, ih]

lemma mapGet_mapSet_other (m : List (Nat × Transaction)) (k k2 : Nat)
    (v : Transaction) (hne : k2 ≠ k) :
    mapGet (mapSet m k v) k2 = mapGet m k2 := by
  induction m with
  | nil => simp [mapSet, mapGet, Ne.symm hne]
  | cons p rest ih =>
    obtain ⟨k3, v3⟩ := p
    by_cases hk : k3 = k
    · subst hk
      simp [mapSet, mapGet, Ne.symm hne]
    · simp only [mapSet, if_neg hk]
      by_cases hk2 : k3 = k2
      · simp [mapGet, hk2]
      · simp [mapGet, hk2, ih]

lemma mapSet_mem (m : List (Nat × Transaction)) (k : Nat) (v : Transaction) :
    ∀ p ∈ mapSet m k v, p = (k, v) ∨ p ∈ m := by
  induction m with
  | nil => simp [mapSet]
  | cons q rest ih =>
    obtain ⟨k2, v2⟩ := q
    by_cases hk : k2 = k
    · simp only [mapSet, if_pos hk]
      intro p hp
      rcases List.mem_cons.mp hp with h | h
      · exact Or.inl h
      · exact Or.inr (List.mem_cons_of_mem _ h)
    · simp only [mapSet, if_neg hk]
      intro p hp
      rcases List.mem_cons.mp hp with h | h
      · exact Or.inr (h ▸ List.mem_cons_self _ _)
      · rcases ih p h with h2 | h2
        · exact Or.inl h2
        · exact Or.inr (List.mem_cons_of_mem _ h2)

lemma mapGet_mem (m : List (Nat × Transaction)) (k : Nat) (v : Transaction)
    (h : mapGet m k = some v) : (k, v) ∈ m := by
  induction m with
  | nil => simp [mapGet] at h
  | cons q rest ih =>
    obtain ⟨k2, v2⟩ := q
    by_cases hk : k2 = k
    · subst hk
      simp only [mapGet] at h
      simp only [if_true, Option.some_inj, eq_self_iff_true, if_pos] at h
      subst h
      exact List.mem_cons_self _ _
    · simp only [mapGet, if_neg hk] at h
      exact List.mem_cons_of_mem _ (ih h)

/-- Well-formedness of a database's transaction table: positive next id,
every entry keyed by the transaction's own id, keys positive and below the
next free id.  `newDatabase` satisfies it and every command preserves it. -/
def Database.Inv (d : Database) : Prop :=
  1 ≤ d.nextTransactionId ∧
    ∀ p ∈ d.transactions,
      p.2.id = p.1 ∧ 0 < p.1 ∧ p.1 < d.nextTransactionId

lemma inv_newDatabase : Database.Inv newDatabase := by
  constructor
  · exact Nat.le_refl 1
  · intro p hp
    simp [newDatabase] at hp

lemma inv_store_update (d : Database) (s : String → List Value)
    (h : d.Inv) : Database.Inv { d with store := s } := h

lemma inv_mapGet_lt (d : Database) (h : d.Inv) (k : Nat) (v : Transaction)
    (hm : mapGet d.transactions k = some v) :
    v.id = k ∧ 0 < k ∧ k < d.nextTransactionId :=
  h.2 _ (mapGet_mem d.transactions k v hm)

lemma inv_newTransaction (d : Database) (h : d.Inv) :
    Database.Inv (d.newTransaction).2 := by
  refine ⟨Nat.le_succ_of_le h.1, ?_⟩
  intro p hp
  simp only [Database.newTransaction] at hp
  rcases mapSet_mem _ _ _ p hp with h2 | h2
  · subst h2
    exact ⟨rfl, Nat.lt_of_lt_of_le Nat.zero_lt_one h.1, Nat.lt_succ_self _⟩
  · have := h.2 p h2
    exact ⟨this.1, this.2.1, Nat.lt_succ_of_lt this.2.2⟩

lemma isvisible_pred_eq_isLive (db : Database) (t : Transaction)
    (h : t.isolation = IsolationLevel.readUncommitedIsolation) :
    (fun v => decide (db.isvisible t v = some true)) = isLive := by
  funext v
  exact decide_eq_decide.mpr (isvisible_true_iff db t v h)

lemma isvisible_close_eq_closeIfLive (db : Database) (t : Transaction)
    (h : t.isolation = IsolationLevel.readUncommitedIsolation) :
    (fun v => if db.isvisible t v = some true
              then { v with txEndId := t.id } else v) = closeIfLive t.id := by
  funext v
  by_cases hz : v.txEndId = 0
  · rw [if_pos ((isvisible_true_iff db t v h).mpr hz)]
    simp [closeIfLive, hz]
  · rw [if_neg (fun hc => hz ((isvisible_true_iff db t v h).mp hc))]
    simp [closeIfLive, hz]

/-- ReadUncommitted database used to instantiate witnesses. -/
def sampleRUDatabase : Database :=
  { newDatabase with defaultIsolation := IsolationLevel.readUncommitedIsolation }

lemma inv_completeTransaction (d : Database) (t : Transaction)
    (st : TransactionState) (h : d.Inv)
    (hv : d.assertValidTransaction t = true) :
    Database.Inv (d.completeTransaction t st).2 := by
  obtain ⟨hid, tt, hget, -⟩ := (assertValidTransaction_iff d t).mp hv
  have hlt := (inv_mapGet_lt d h t.id tt hget).2.2
  refine ⟨h.1, ?_⟩
  intro p hp
  simp only [Database.completeTransaction] at hp
  rcases mapSet_mem _ _ _ p hp with h2 | h2
  · subst h2
    exact ⟨rfl, hid, hlt⟩
  · exact h.2 p h2

/-- Claim C1: for every transaction at ReadUncommitted isolation and every
stored version, `isvisible` answers exactly "the version's `txEndId` is 0
(not ended)": it returns true iff the version has not been ended,
independently of the database's transaction table (so independently of
whether the creating or ending transaction committed, aborted, or is still
running — `d` and every field of `t` other than `isolation` are universally
quantified).  In particular a version written by a transaction that has not
committed, or that later aborts, is still visible to any reader. -/
theorem isvisible_readUncommitted_iff_not_ended (d : Database)
    (t : Transaction) (v : Value)
    (h : t.isolation = IsolationLevel.readUncommitedIsolation) :
    d.isvisible t v = some (decide (v.txEndId = 0)) ∧
    (d.isvisible t v = some true ↔ v.txEndId = 0) :=
  ⟨isvisible_ru d t v h, isvisible_true_iff d t v h⟩

/-- Witness for C1: a not-yet-ended version created by transaction 3 is
visible to a ReadUncommitted reader even though the reader's own record is
aborted and the database (here `newDatabase`) knows nothing of
transaction 3. -/
theorem isvisible_readUncommitted_iff_not_ended_witness :
    newDatabase.isvisible
      { isolation := IsolationLevel.readUncommitedIsolation, id := 7,
        state := TransactionState.abortedTransaction, inprogress := [],
        writeset := [], readset := [] }
      { txStartId := 3, txEndId := 0, value := "hey" } = some true :=
  (isvisible_readUncommitted_iff_not_ended newDatabase
    { isolation := IsolationLevel.readUncommitedIsolation, id := 7,
      state := TransactionState.abortedTransaction, inprogress := [],
      writeset := [], readset := [] }
    { txStartId := 3, txEndId := 0, value := "hey" } rfl).2.mpr rfl

/-- Claim C2: with an active valid transaction (at the one isolation level
whose visibility predicate is defined, ReadUncommitted — under any other
level the scan is fatal, see C6), `get key` scans the key's version chain
from most recently created (end of the stored list) to oldest and returns
the payload of the first version `isvisible` accepts, after inserting the
key into the read set; when no version is visible — in particular on an
empty chain — it returns the error "cannot get key that does not exist"
and the database is returned unchanged. -/
theorem get_returns_first_visible (db : Database) (t : Transaction)
    (key : String) (rest : List String)
    (hv : db.assertValidTransaction t = true)
    (hiso : t.isolation = IsolationLevel.readUncommitedIsolation) :
    execCommand db (some t) "get" (key :: rest) =
      match (db.store key).reverse.find?
          (fun v => decide (db.isvisible t v = some true)) with
      | some v => ExecResult.ok v.value
          (some { t with readset := setInsertStr t.readset key }) db
      | none => ExecResult.err "cannot get key that does not exist"
          (some { t with readset := setInsertStr t.readset key }) db := by
  have hscan := scanVisible_ru db { t with readset := setInsertStr t.readset key }
    hiso ((db.store key).reverse)
  rw [isvisible_pred_eq_isLive db t hiso]
  simp only [execCommand]
  simp [hv, hscan]
  cases hfind : (db.store key).reverse.find? isLive <;> simp

/-- Witness for C2: on a fresh ReadUncommitted database with one started
transaction, `get x` fails with the NotFound error and reports "x" in the
read set. -/
theorem get_returns_first_visible_witness :
    execCommand (sampleRUDatabase.newTransaction).2
        (some (sampleRUDatabase.newTransaction).1) "get" ["x"] =
      ExecResult.err "cannot get key that does not exist"
        (some { (sampleRUDatabase.newTransaction).1 with readset := ["x"] })
        (sampleRUDatabase.newTransaction).2 := by
  have h := get_returns_first_visible (sampleRUDatabase.newTransaction).2
    (sampleRUDatabase.newTransaction).1 "x" [] (by decide) rfl
  simpa using h

/-- Claim C3: with an active valid ReadUncommitted transaction, `set key
value` marks `txEndId := t.id` on every version of the key visible to the
transaction (all of them, not assuming exactly one), appends the new
version `{txStartId := t.id, txEndId := 0, value}`, inserts the key into
the write set, and returns the written value; on an empty chain the map
closes nothing and only the append happens. -/
theorem set_closes_visible_and_appends (db : Database) (t : Transaction)
    (key value : String) (rest : List String)
    (hv : db.assertValidTransaction t = true)
    (hiso : t.isolation = IsolationLevel.readUncommitedIsolation) :
    execCommand db (some t) "set" (key :: value :: rest) =
      ExecResult.ok value
        (some { t with writeset := setInsertStr t.writeset key })
        { db with store :=
            (storeSet db.store key
              (((db.store key).map
                  (fun v => if db.isvisible t v = some true
                            then { v with txEndId := t.id } else v)) ++
                [{ txStartId := t.id, txEndId := 0, value := value }])) } := by
  have hclose := closeVisible_ru db t hiso (db.store key)
  rw [isvisible_close_eq_closeIfLive db t hiso]
  simp only [execCommand]
  simp [hv, hclose]

/-- Witness for C3: setting "x" to "hey" in a fresh ReadUncommitted
database appends the single version created by transaction 1 and returns
"hey"; the chain afterwards is exactly that one version. -/
theorem set_closes_visible_and_appends_witness :
    execCommand (sampleRUDatabase.newTransaction).2
        (some (sampleRUDatabase.newTransaction).1) "set" ["x", "hey"] =
      ExecResult.ok "hey"
        (some { (sampleRUDatabase.newTransaction).1 with writeset := ["x"] })
        { (sampleRUDatabase.newTransaction).2 with store :=
            (storeSet ((sampleRUDatabase.newTransaction).2).store "x"
              [{ txStartId := 1, txEndId := 0, value := "hey" }]) } := by
  have h := set_closes_visible_and_appends (sampleRUDatabase.newTransaction).2
    (sampleRUDatabase.newTransaction).1 "x" "hey" [] (by decide) rfl
  simpa using h

/-- Claim C4: with an active valid ReadUncommitted transaction, `delete
key` fails with the error "cannot delete key that does not exist" and
leaves the database and the transaction completely unchanged when no
version of the key is visible; when at least one version is visible it
marks `txEndId := t.id` on every visible version, inserts the key into the
write set, and returns the empty string. -/
theorem delete_notfound_or_closes_visible (db : Database) (t : Transaction)
    (key : String) (rest : List String)
    (hv : db.assertValidTransaction t = true)
    (hiso : t.isolation = IsolationLevel.readUncommitedIsolation) :
    ((∀ v ∈ db.store key, ¬ db.isvisible t v = some true) →
      execCommand db (some t) "delete" (key :: rest) =
        ExecResult.err "cannot delete key that does not exist" (some t) db) ∧
    ((∃ v ∈ db.store key, db.isvisible t v = some true) →
      execCommand db (some t) "delete" (key :: rest) =
        ExecResult.ok "" (some { t with writeset := setInsertStr t.writeset key })
          { db with store :=
              (storeSet db.store key
                ((db.store key).map
                  (fun v => if db.isvisible t v = some true
                            then { v with txEndId := t.id } else v))) }) := by
  have hclose := closeVisible_ru db t hiso (db.store key)
  constructor
  · intro hnone
    have hany : (db.store key).any isLive = false := by
      rw [List.any_eq_false]
      intro v hvmem
      have := hnone v hvmem
      rw [isvisible_true_iff db t v hiso] at this
      simp [isLive, this]
    have hmap := map_closeIfLive_of_none_live t.id (db.store key) hany
    simp only [execCommand]
    simp [hv, hclose, hany, hmap, storeSet_self]
  · intro hsome
    have hany : (db.store key).any isLive = true := by
      rw [List.any_eq_true]
      obtain ⟨v, hvmem, hvis⟩ := hsome
      exact ⟨v, hvmem, by simp [isLive, (isvisible_true_iff db t v hiso).mp hvis]⟩
    rw [isvisible_close_eq_closeIfLive db t hiso]
    simp only [execCommand]
    simp [hv, hclose, hany]

/-- Witness for C4: in a ReadUncommitted database whose chain for "x"
holds one live version, `delete x` closes it (its `txEndId` becomes the
deleting transaction's id 1) and returns the empty string. -/
theorem delete_notfound_or_closes_visible_witness :
    execCommand
        { (sampleRUDatabase.newTransaction).2 with store :=
            (storeSet ((sampleRUDatabase.newTransaction).2).store "x"
              [{ txStartId := 1, txEndId := 0, value := "hey" }]) }
        (some (sampleRUDatabase.newTransaction).1) "delete" ["x"] =
      ExecResult.ok ""
        (some { (sampleRUDatabase.newTransaction).1 with writeset := ["x"] })
        { (sampleRUDatabase.newTransaction).2 with store :=
            (storeSet
              (storeSet ((sampleRUDatabase.newTransaction).2).store "x"
                [{ txStartId := 1, txEndId := 0, value := "hey" }]) "x"
              [{ txStartId := 1, txEndId := 1, value := "hey" }]) } := by
  have h := (delete_notfound_or_closes_visible
    { (sampleRUDatabase.newTransaction).2 with store :=
        (storeSet ((sampleRUDatabase.newTransaction).2).store "x"
          [{ txStartId := 1, txEndId := 0, value := "hey" }]) }
    (sampleRUDatabase.newTransaction).1 "x" [] (by decide) rfl).2
    ⟨{ txStartId := 1, txEndId := 0, value := "hey" }, by simp [storeSet], by decide⟩
  simpa [storeSet] using h

/-- Claim C5 is refuted at this input: on a freshly begun transaction of a
fresh database, `get x` (no versions of "x" exist) fails with the NotFound
error, yet the connection's transaction does not come back unchanged — its
read set, empty before the call, now holds "x".  The store and the
transaction table are indeed unchanged, but the Go code inserts the key
into `readset` before the visibility scan, so "neither ... any field of
the transaction (including its read set) is modified" is false. -/
theorem get_notfound_mutates_readset :
    ((newDatabase.newTransaction).1).readset = [] ∧
    execCommand (newDatabase.newTransaction).2
        (some (newDatabase.newTransaction).1) "get" ["x"] =
      ExecResult.err "cannot get key that does not exist"
        (some { (newDatabase.newTransaction).1 with readset := ["x"] })
        (newDatabase.newTransaction).2 :=
  ⟨rfl, rfl⟩

/-- Claim C5 as amended: with an active valid ReadUncommitted transaction,
a `get` on a key with no visible version (zero versions, or all versions
ended) fails with the NotFound error, the database — store and transaction
table — is returned unchanged, and the only field of the transaction that
changes is the read set, into which the key is inserted. -/
theorem get_notfound_only_readset_changes (db : Database) (t : Transaction)
    (key : String) (rest : List String)
    (hv : db.assertValidTransaction t = true)
    (hiso : t.isolation = IsolationLevel.readUncommitedIsolation)
    (hnone : ∀ v ∈ db.store key, v.txEndId ≠ 0) :
    execCommand db (some t) "get" (key :: rest) =
      ExecResult.err "cannot get key that does not exist"
        (some { t with readset := setInsertStr t.readset key }) db := by
  have h := get_returns_first_visible db t key rest hv hiso
  have hfind : (db.store key).reverse.find?
      (fun v => decide (db.isvisible t v = some true)) = none := by
    rw [List.find?_eq_none]
    intro v hvmem
    rw [List.mem_reverse] at hvmem
    simp only [decide_eq_true_eq]
    exact fun hc => hnone v hvmem ((isvisible_true_iff db t v hiso).mp hc)
  rw [h, hfind]

/-- Witness for the amended C5: a ReadUncommitted database whose only
version of "y" is already ended; `get y` fails with NotFound, returns the
database untouched, and the read set gains "y". -/
theorem get_notfound_only_readset_changes_witness :
    execCommand
        { (sampleRUDatabase.newTransaction).2 with store :=
            (storeSet ((sampleRUDatabase.newTransaction).2).store "y"
              [{ txStartId := 1, txEndId := 1, value := "old" }]) }
        (some (sampleRUDatabase.newTransaction).1) "get" ["y"] =
      ExecResult.err "cannot get key that does not exist"
        (some { (sampleRUDatabase.newTransaction).1 with readset := ["y"] })
        { (sampleRUDatabase.newTransaction).2 with store :=
            (storeSet ((sampleRUDatabase.newTransaction).2).store "y"
              [{ txStartId := 1, txEndId := 1, value := "old" }]) } := by
  have h := get_notfound_only_readset_changes
    { (sampleRUDatabase.newTransaction).2 with store :=
        (storeSet ((sampleRUDatabase.newTransaction).2).store "y"
          [{ txStartId := 1, txEndId := 1, value := "old" }]) }
    (sampleRUDatabase.newTransaction).1 "y" [] (by decide) rfl
    (by intro v hv2; simp [storeSet] at hv2; simp [hv2])
  simpa using h

lemma not_ru_of_stricter (t : Transaction)
    (hiso : t.isolation = IsolationLevel.readCommitedIsolation ∨
            t.isolation = IsolationLevel.repeatableReadIsolation ∨
            t.isolation = IsolationLevel.snapshotIsolation ∨
            t.isolation = IsolationLevel.serializableIsolation) :
    t.isolation ≠ IsolationLevel.readUncommitedIsolation := by
  rcases hiso with h | h | h | h <;> simp [h]

/-- Any of get/set/delete on a non-empty chain is fatal when the
transaction's isolation level is not ReadUncommitted. -/
lemma exec_fatal_of_not_ru (db : Database) (t : Transaction)
    (key : String) (rest : List String)
    (hne : t.isolation ≠ IsolationLevel.readUncommitedIsolation)
    (hv : db.assertValidTransaction t = true)
    (hchain : db.store key ≠ []) :
    execCommand db (some t) "get" (key :: rest) =
      ExecResult.fatal "unsupported isolation level" ∧
    execCommand db (some t) "set" (key :: rest) =
      ExecResult.fatal "unsupported isolation level" ∧
    execCommand db (some t) "delete" (key :: rest) =
      ExecResult.fatal "unsupported isolation level" := by
  have hclose : closeVisible db t (db.store key) = none := by
    cases hc : db.store key with
    | nil => exact absurd hc hchain
    | cons v3 r3 => exact closeVisible_not_ru db t v3 r3 hne
  cases hrev : (db.store key).reverse with
  | nil => exact absurd (List.reverse_eq_nil_iff.mp hrev) hchain
  | cons v2 r2 =>
    have hscan := scanVisible_not_ru db
      { t with readset := setInsertStr t.readset key } v2 r2 hne
    refine ⟨?_, ?_, ?_⟩
    · simp only [execCommand]
      simp [hv, hrev, hscan]
    · simp only [execCommand]
      simp [hv, hclose]
    · simp only [execCommand]
      simp [hv, hclose]

/-- Claim C6: for a transaction at ReadCommitted, RepeatableRead, Snapshot
or Serializable isolation, `isvisible` never returns (it hits the fatal
"unsupported isolation level" assertion, modelled as `none`, so its
normal-return branch is unreachable), and consequently any get, set or
delete executed by such a transaction against a non-empty version chain
ends in that fatal outcome instead of falling back to ReadUncommitted
behaviour. -/
theorem stricter_isolation_fatal (db : Database) (t : Transaction)
    (v : Value) (key : String) (rest : List String)
    (hiso : t.isolation = IsolationLevel.readCommitedIsolation ∨
            t.isolation = IsolationLevel.repeatableReadIsolation ∨
            t.isolation = IsolationLevel.snapshotIsolation ∨
            t.isolation = IsolationLevel.serializableIsolation) :
    db.isvisible t v = none ∧
    (db.assertValidTransaction t = true → db.store key ≠ [] →
      execCommand db (some t) "get" (key :: rest) =
        ExecResult.fatal "unsupported isolation level" ∧
      execCommand db (some t) "set" (key :: rest) =
        ExecResult.fatal "unsupported isolation level" ∧
      execCommand db (some t) "delete" (key :: rest) =
        ExecResult.fatal "unsupported isolation level") :=
  ⟨isvisible_not_ru db t v (not_ru_of_stricter t hiso),
   fun hv hchain =>
     exec_fatal_of_not_ru db t key rest (not_ru_of_stricter t hiso) hv hchain⟩

/-- Witness for C6: a freshly begun transaction of `newDatabase` (hence at
the default ReadCommitted isolation) against a database holding one
version of "x": get, set and delete are all fatal. -/
theorem stricter_isolation_fatal_witness :
    execCommand
        { (newDatabase.newTransaction).2 with store :=
            (storeSet ((newDatabase.newTransaction).2).store "x"
              [{ txStartId := 1, txEndId := 0, value := "hey" }]) }
        (some (newDatabase.newTransaction).1) "get" ["x"] =
      ExecResult.fatal "unsupported isolation level" := by
  have h := stricter_isolation_fatal
    { (newDatabase.newTransaction).2 with store :=
        (storeSet ((newDatabase.newTransaction).2).store "x"
          [{ txStartId := 1, txEndId := 0, value := "hey" }]) }
    (newDatabase.newTransaction).1
    { txStartId := 1, txEndId := 0, value := "hey" } "x" []
    (Or.inl rfl)
  exact (h.2 (by decide) (by simp [storeSet])).1

/-- Claim C9: `newDatabase` defaults to ReadCommitted isolation, every new
transaction inherits the database default, and therefore on a database
whose default was not changed every get, set or delete that evaluates
visibility against at least one stored version (a ReadCommitted
transaction, non-empty chain) ends in the fatal "unsupported isolation
level" assertion: the engine only executes data commands after the caller
switches the default to ReadUncommitted. -/
theorem default_isolation_read_committed_unusable :
    newDatabase.defaultIsolation = IsolationLevel.readCommitedIsolation ∧
    (∀ d : Database, ((d.newTransaction).1).isolation = d.defaultIsolation) ∧
    (∀ (db : Database) (t : Transaction) (key : String) (rest : List String),
      db.assertValidTransaction t = true →
      t.isolation = IsolationLevel.readCommitedIsolation →
      db.store key ≠ [] →
      execCommand db (some t) "get" (key :: rest) =
        ExecResult.fatal "unsupported isolation level" ∧
      execCommand db (some t) "set" (key :: rest) =
        ExecResult.fatal "unsupported isolation level" ∧
      execCommand db (some t) "delete" (key :: rest) =
        ExecResult.fatal "unsupported isolation level") := by
  refine ⟨rfl, fun d => rfl, ?_⟩
  intro db t key rest hv hiso hchain
  exact exec_fatal_of_not_ru db t key rest (by simp [hiso]) hv hchain

/-- Witness for C9: on `newDatabase` extended with one stored version of
"x", the transaction begun with the untouched default isolation makes
`set x v2` fatal. -/
theorem default_isolation_read_committed_unusable_witness :
    execCommand
        { (newDatabase.newTransaction).2 with store :=
            (storeSet ((newDatabase.newTransaction).2).store "x"
              [{ txStartId := 1, txEndId := 0, value := "hey" }]) }
        (some (newDatabase.newTransaction).1) "set" ["x", "v2"] =
      ExecResult.fatal "unsupported isolation level" := by
  have h := default_isolation_read_committed_unusable.2.2
    { (newDatabase.newTransaction).2 with store :=
        (storeSet ((newDatabase.newTransaction).2).store "x"
          [{ txStartId := 1, txEndId := 0, value := "hey" }]) }
    (newDatabase.newTransaction).1 "x" ["v2"] (by decide) rfl
    (by simp [storeSet])
  exact h.2.1

/-- Claim C10: `execCommand` never validates argument counts: with an
active valid transaction, `get` or `delete` with an empty argument list,
and `set` with fewer than two arguments, end in a fatal outcome (the Go
code indexes past the end of the `args` slice, or — for `set` with one
argument on a non-ReadUncommitted transaction and non-empty chain — dies
in the visibility assertion first) rather than returning a recoverable
error. -/
theorem exec_no_argument_validation (db : Database) (t : Transaction)
    (key : String) (hv : db.assertValidTransaction t = true) :
    isFatal (execCommand db (some t) "get" []) = true ∧
    isFatal (execCommand db (some t) "delete" []) = true ∧
    isFatal (execCommand db (some t) "set" []) = true ∧
    isFatal (execCommand db (some t) "set" [key]) = true := by
  refine ⟨?_, ?_, ?_, ?_⟩
  · simp only [execCommand]
    simp [hv, isFatal]
  · simp only [execCommand]
    simp [hv, isFatal]
  · simp only [execCommand]
    simp [hv, isFatal]
  · simp only [execCommand]
    cases hc : closeVisible db t (db.store key) with
    | none => simp [hv, hc, isFatal]
    | some p =>
      obtain ⟨chain, found⟩ := p
      simp [hv, hc, isFatal]

/-- Witness for C10: on a fresh ReadUncommitted database with a begun
transaction, all four under-supplied calls are fatal. -/
theorem exec_no_argument_validation_witness :
    isFatal (execCommand (sampleRUDatabase.newTransaction).2
      (some (sampleRUDatabase.newTransaction).1) "get" []) = true ∧
    isFatal (execCommand (sampleRUDatabase.newTransaction).2
      (some (sampleRUDatabase.newTransaction).1) "delete" []) = true ∧
    isFatal (execCommand (sampleRUDatabase.newTransaction).2
      (some (sampleRUDatabase.newTransaction).1) "set" []) = true ∧
    isFatal (execCommand (sampleRUDatabase.newTransaction).2
      (some (sampleRUDatabase.newTransaction).1) "set" ["x"]) = true :=
  exec_no_argument_validation (sampleRUDatabase.newTransaction).2
    (sampleRUDatabase.newTransaction).1 "x" (by decide)

/-- Every database a non-fatal command leaves behind is one of: the input
database with at most the store changed, the database produced by
`newTransaction`, or the database produced by `completeTransaction` on a
transaction that passed `assertValidTransaction`. -/
lemma resultDb_execCommand_cases (db : Database) (tx : Option Transaction)
    (cmd : String) (args : List String) (d2 : Database)
    (h : resultDb (execCommand db tx cmd args) = some d2) :
    (d2.transactions = db.transactions ∧
      d2.nextTransactionId = db.nextTransactionId) ∨
    (d2 = (db.newTransaction).2) ∨
    (∃ t st, tx = some t ∧ db.assertValidTransaction t = true ∧
      d2 = (db.completeTransaction t st).2) := by
  by_cases hb : cmd = "begin"
  · subst hb
    cases tx with
    | some t => simp [execCommand, resultDb] at h
    | none =>
      cases hnew : db.newTransaction with
      | mk t db3 =>
        by_cases hv : db3.assertValidTransaction t = true
        · simp [execCommand, hnew, hv, resultDb] at h
          exact Or.inr (Or.inl h.symm)
        · simp [execCommand, hnew, hv, resultDb] at h
  by_cases ha : cmd = "abort"
  · subst ha
    cases tx with
    | none => simp [execCommand, resultDb] at h
    | some t =>
      by_cases hv : db.assertValidTransaction t = true
      · cases hcomp : db.completeTransaction t TransactionState.abortedTransaction with
        | mk t2 db3 =>
          simp [execCommand, hcomp, hv, resultDb] at h
          exact Or.inr (Or.inr ⟨t, TransactionState.abortedTransaction, rfl, hv,
            by rw [hcomp]; exact h.symm⟩)
      · simp [execCommand, hv, resultDb] at h
  by_cases hc : cmd = "commit"
  · subst hc
    cases tx with
    | none => simp [execCommand, resultDb] at h
    | some t =>
      by_cases hv : db.assertValidTransaction t = true
      · cases hcomp : db.completeTransaction t TransactionState.committedTransaction with
        | mk t2 db3 =>
          simp [execCommand, hcomp, hv, resultDb] at h
          exact Or.inr (Or.inr ⟨t, TransactionState.committedTransaction, rfl, hv,
            by rw [hcomp]; exact h.symm⟩)
      · simp [execCommand, hv, resultDb] at h
  by_cases hg : cmd = "get"
  · subst hg
    cases tx with
    | none => simp [execCommand, resultDb] at h
    | some t =>
      by_cases hv : db.assertValidTransaction t = true
      · cases hk : args[0]? with
        | none => simp [execCommand, hv, hk, resultDb] at h
        | some key =>
          cases hs : scanVisible db
              { t with readset := setInsertStr t.readset key }
              ((db.store key).reverse) with
          | none => simp [execCommand, hv, hk, hs, resultDb] at h
          | some o =>
            cases o with
            | none =>
              simp [execCommand, hv, hk, hs, resultDb] at h
              exact Or.inl (by rw [← h]; exact ⟨rfl, rfl⟩)
            | some v =>
              simp [execCommand, hv, hk, hs, resultDb] at h
              exact Or.inl (by rw [← h]; exact ⟨rfl, rfl⟩)
      · simp [execCommand, hv, resultDb] at h
  by_cases hsd : cmd = "set" ∨ cmd = "delete"
  · rcases hsd with hset | hdel
    · subst hset
      cases tx with
      | none => simp [execCommand, resultDb] at h
      | some t =>
        by_cases hv : db.assertValidTransaction t = true
        · cases hk : args[0]? with
          | none => simp [execCommand, hv, hk, resultDb] at h
          | some key =>
            cases hcl : closeVisible db t (db.store key) with
            | none => simp [execCommand, hv, hk, hcl, resultDb] at h
            | some p =>
              obtain ⟨chain, found⟩ := p
              cases hval : args[1]? with
              | none => simp [execCommand, hv, hk, hcl, hval, resultDb] at h
              | some value =>
                simp [execCommand, hv, hk, hcl, hval, resultDb] at h
                exact Or.inl (by rw [← h]; exact ⟨rfl, rfl⟩)
        · simp [execCommand, hv, resultDb] at h
    · subst hdel
      cases tx with
      | none => simp [execCommand, resultDb] at h
      | some t =>
        by_cases hv : db.assertValidTransaction t = true
        · cases hk : args[0]? with
          | none => simp [execCommand, hv, hk, resultDb] at h
          | some key =>
            cases hcl : closeVisible db t (db.store key) with
            | none => simp [execCommand, hv, hk, hcl, resultDb] at h
            | some p =>
              obtain ⟨chain, found⟩ := p
              cases found with
              | false =>
                simp [execCommand, hv, hk, hcl, resultDb] at h
                exact Or.inl (by rw [← h]; exact ⟨rfl, rfl⟩)
              | true =>
                simp [execCommand, hv, hk, hcl, resultDb] at h
                exact Or.inl (by rw [← h]; exact ⟨rfl, rfl⟩)
        · simp [execCommand, hv, resultDb] at h
  · simp [execCommand, hb, ha, hc, hg, hsd, resultDb] at h
    exact Or.inl (by rw [← h]; exact ⟨rfl, rfl⟩)

/-- Claim C7: transaction ids start at 1 (`newDatabase` has next id 1, and
its first transaction gets id 1) and are strictly increasing over the
database's lifetime: on any well-formed database, `newTransaction` returns
a positive id equal to the current next-id counter and strictly greater
than every id already in the transaction table (so no id — even of an
aborted transaction — is ever reused, and 0, which is smaller than every
assigned id, is never assigned); well-formedness holds initially and is
preserved, with a never-decreasing counter, by every non-fatal command. -/
theorem transaction_ids_monotone :
    (newDatabase.nextTransactionId = 1 ∧ Database.Inv newDatabase ∧
      ((newDatabase.newTransaction).1).id = 1) ∧
    (∀ d : Database, d.Inv →
      0 < ((d.newTransaction).1).id ∧
      ((d.newTransaction).1).id = d.nextTransactionId ∧
      (∀ k tx2, mapGet d.transactions k = some tx2 →
        k < ((d.newTransaction).1).id) ∧
      Database.Inv (d.newTransaction).2 ∧
      ((d.newTransaction).2).nextTransactionId = d.nextTransactionId + 1) ∧
    (∀ (db : Database) (tx : Option Transaction) (cmd : String)
        (args : List String) (d2 : Database),
      db.Inv → resultDb (execCommand db tx cmd args) = some d2 →
      db.nextTransactionId ≤ d2.nextTransactionId ∧ d2.Inv) := by
  refine ⟨⟨rfl, inv_newDatabase, rfl⟩, ?_, ?_⟩
  · intro d h
    refine ⟨?_, rfl, ?_, inv_newTransaction d h, rfl⟩
    · exact Nat.lt_of_lt_of_le Nat.zero_lt_one h.1
    · intro k tx2 hm
      exact (inv_mapGet_lt d h k tx2 hm).2.2
  · intro db tx cmd args d2 hInv h
    rcases resultDb_execCommand_cases db tx cmd args d2 h with
      ⟨ht, hn⟩ | h2 | ⟨t, st, htx, hv, h2⟩
    · refine ⟨Nat.le_of_eq hn.symm, hn ▸ hInv.1, ?_⟩
      intro p hp
      rw [ht] at hp
      rw [hn]
      exact hInv.2 p hp
    · subst h2
      exact ⟨Nat.le_succ _, inv_newTransaction db hInv⟩
    · subst h2
      exact ⟨Nat.le_refl _, inv_completeTransaction db t st hInv hv⟩

/-- Witness for C7: instantiating the allocation part at `newDatabase`:
the first transaction's id is positive, the successor database is still
well-formed and its next id is 2; and instantiating the preservation part
at the begin command on `newDatabase`. -/
theorem transaction_ids_monotone_witness :
    (0 < ((newDatabase.newTransaction).1).id ∧
      Database.Inv (newDatabase.newTransaction).2 ∧
      ((newDatabase.newTransaction).2).nextTransactionId = 2) ∧
    (newDatabase.nextTransactionId ≤
        ((newDatabase.newTransaction).2).nextTransactionId ∧
      Database.Inv (newDatabase.newTransaction).2) := by
  have h1 := transaction_ids_monotone.2.1 newDatabase inv_newDatabase
  have h2 := transaction_ids_monotone.2.2 newDatabase none "begin" []
    (newDatabase.newTransaction).2 inv_newDatabase rfl
  exact ⟨⟨h1.1, h1.2.2.2.1, h1.2.2.2.2⟩, h2⟩

/-- Claim C8: over any single non-fatal command on a well-formed database,
no entry ever leaves the transaction table (every key previously mapped is
still mapped), and an entry whose state is terminal (Aborted or Committed,
i.e. not InProgress) is left exactly as it was — in particular it never
returns to InProgress.  With C7's preservation of well-formedness this
extends to every sequence of commands. -/
theorem transaction_table_terminal_and_permanent (db : Database)
    (tx : Option Transaction) (cmd : String) (args : List String)
    (d2 : Database) (hInv : db.Inv)
    (h : resultDb (execCommand db tx cmd args) = some d2) :
    ∀ k txo, mapGet db.transactions k = some txo →
      ∃ txn, mapGet d2.transactions k = some txn ∧
        (txo.state ≠ TransactionState.inProgressTransaction → txn = txo) := by
  intro k txo hk
  rcases resultDb_execCommand_cases db tx cmd args d2 h with
    ⟨ht, hn⟩ | h2 | ⟨t, st, htx, hv, h2⟩
  · exact ⟨txo, by rw [ht]; exact hk, fun _ => rfl⟩
  · have hklt := (inv_mapGet_lt db hInv k txo hk).2.2
    refine ⟨txo, ?_, fun _ => rfl⟩
    rw [h2]
    show mapGet (mapSet db.transactions db.nextTransactionId _) k = some txo
    rw [mapGet_mapSet_other _ _ _ _ (Nat.ne_of_lt hklt)]
    exact hk
  · obtain ⟨hid, tt, hget, hstate⟩ := (assertValidTransaction_iff db t).mp hv
    by_cases hkt : k = t.id
    · subst hkt
      refine ⟨{ t with state := st }, ?_, fun hterm => absurd ?_ hterm⟩
      · rw [h2]
        show mapGet (mapSet db.transactions t.id _) t.id = some _
        exact mapGet_mapSet_same _ _ _
      · have heq : txo = tt := by
          rw [hget] at hk
          exact (Option.some_inj.mp hk).symm
        rw [heq]
        exact hstate
    · refine ⟨txo, ?_, fun _ => rfl⟩
      rw [h2]
      show mapGet (mapSet db.transactions t.id _) k = some txo
      rw [mapGet_mapSet_other _ _ _ _ hkt]
      exact hk

/-- Witness for C8: committing the first transaction of a fresh database;
its table entry (key 1) survives the command, and the terminal-state guard
is instantiated (vacuously true here, as the entry was still InProgress
before the commit). -/
theorem transaction_table_terminal_and_permanent_witness :
    ∃ txn,
      mapGet (((newDatabase.newTransaction).2.completeTransaction
          (newDatabase.newTransaction).1
          TransactionState.committedTransaction).2).transactions 1 = some txn ∧
      (((newDatabase.newTransaction).1).state ≠
          TransactionState.inProgressTransaction →
        txn = (newDatabase.newTransaction).1) :=
  transaction_table_terminal_and_permanent (newDatabase.newTransaction).2
    (some (newDatabase.newTransaction).1) "commit" [] _
    (inv_newTransaction newDatabase inv_newDatabase) rfl
    1 (newDatabase.newTransaction).1 (by decide)

end MVCC
